import Mathlib

/-!
Verification of the UDP file-transfer core (`Source/client.py`, `Source/server.py`).

The Python source is shallowly embedded: byte strings become `List Nat`
(one entry per byte), Python dicts keyed by sequence number become
association lists with Python-dict update semantics, and the per-packet
handlers of the client receive loop and the server transfer worker become
pure step functions on explicit state.  Machine integers do not overflow in
the source (Python has arbitrary-precision ints), so `Nat`/`Int` are exact;
MD5's 32-bit words are reduced modulo `2 ^ 32` explicitly.
-/

namespace FileTransfer

/-! ## MD5 (`hashlib.md5(...).hexdigest()` as used by both peers) -/

namespace MD5

/-- The word modulus of MD5, `2 ^ 32`. -/
def c32 : Nat := 4294967296

/-- The 64 round constants `K[i] = floor(abs(sin(i+1)) * 2^32)`. -/
def K : List Nat :=
  [3614090360, 3905402710, 606105819, 3250441966, 4118548399, 1200080426,
   2821735955, 4249261313, 1770035416, 2336552879, 4294925233, 2304563134,
   1804603682, 4254626195, 2792965006, 1236535329, 4129170786, 3225465664,
   643717713, 3921069994, 3593408605, 38016083, 3634488961, 3889429448,
   568446438, 3275163606, 4107603335, 1163531501, 2850285829, 4243563512,
   1735328473, 2368359562, 4294588738, 2272392833, 1839030562, 4259657740,
   2763975236, 1272893353, 4139469664, 3200236656, 681279174, 3936430074,
   3572445317, 76029189, 3654602809, 3873151461, 530742520, 3299628645,
   4096336452, 1126891415, 2878612391, 4237533241, 1700485571, 2399980690,
   4293915773, 2240044497, 1873313359, 4264355552, 2734768916, 1309151649,
   4149444226, 3174756917, 718787259, 3951481745]

/-- The 64 per-round left-rotation amounts. -/
def S : List Nat :=
  [7, 12, 17, 22, 7, 12, 17, 22, 7, 12, 17, 22, 7, 12, 17, 22,
   5, 9, 14, 20, 5, 9, 14, 20, 5, 9, 14, 20, 5, 9, 14, 20,
   4, 11, 16, 23, 4, 11, 16, 23, 4, 11, 16, 23, 4, 11, 16, 23,
   6, 10, 15, 21, 6, 10, 15, 21, 6, 10, 15, 21, 6, 10, 15, 21]

/-- Left rotation (32-bit) of a word `x < 2 ^ 32`. -/
def rotl (x n : Nat) : Nat := ((x <<< n) ||| (x >>> (32 - n))) % c32

/-- Bitwise complement on 32-bit words. -/
def notW (x : Nat) : Nat := x ^^^ 4294967295

/-- Round function for rounds 0-15. -/
def fF (b c d : Nat) : Nat := (b &&& c) ||| (notW b &&& d)

/-- Round function for rounds 16-31. -/
def fG (b c d : Nat) : Nat := (d &&& b) ||| (notW d &&& c)

/-- Round function for rounds 32-47. -/
def fH (b c d : Nat) : Nat := b ^^^ c ^^^ d

/-- Round function for rounds 48-63. -/
def fI (b c d : Nat) : Nat := c ^^^ (b ||| notW d)

/-- Message-word index used in round `i`. -/
def gIndex (i : Nat) : Nat :=
  if i < 16 then i
  else if i < 32 then (5 * i + 1) % 16
  else if i < 48 then (3 * i + 5) % 16
  else (7 * i) % 16

/-- Mixing value of round `i`. -/
def fVal (i b c d : Nat) : Nat :=
  if i < 16 then fF b c d
  else if i < 32 then fG b c d
  else if i < 48 then fH b c d
  else fI b c d

/-- One MD5 round on the state `(a, b, c, d)` with message words `M`. -/
def round (M : List Nat) (st : Nat × Nat × Nat × Nat) (i : Nat) :
    Nat × Nat × Nat × Nat :=
  let a := st.1
  let b := st.2.1
  let c := st.2.2.1
  let d := st.2.2.2
  let f := (fVal i b c d + a + K.getD i 0 + M.getD (gIndex i) 0) % c32
  (d, (b + rotl f (S.getD i 0)) % c32, b, c)

/-- Process one 64-byte block, updating the running hash state. -/
def processBlock (h : Nat × Nat × Nat × Nat) (block : List Nat) :
    Nat × Nat × Nat × Nat :=
  let M := (List.range 16).map fun j =>
    block.getD (4 * j) 0 + 256 * block.getD (4 * j + 1) 0 +
      65536 * block.getD (4 * j + 2) 0 + 16777216 * block.getD (4 * j + 3) 0
  let r := (List.range 64).foldl (round M) h
  ((h.1 + r.1) % c32, (h.2.1 + r.2.1) % c32,
   (h.2.2.1 + r.2.2.1) % c32, (h.2.2.2 + r.2.2.2) % c32)

/-- Little-endian 8-byte encoding (used for the bit-length trailer). -/
def le8 (n : Nat) : List Nat := (List.range 8).map fun i => n / 256 ^ i % 256

/-- Little-endian 4-byte encoding of a 32-bit word. -/
def le4 (n : Nat) : List Nat :=
  [n % 256, n / 256 % 256, n / 65536 % 256, n / 16777216 % 256]

/-- MD5 padding: `0x80`, zeros to 56 mod 64, then the 64-bit bit length. -/
def padMsg (msg : List Nat) : List Nat :=
  msg ++ [128] ++ List.replicate ((119 - msg.length % 64) % 64) 0 ++
    le8 (8 * msg.length)

/-- Split a byte list into 64-byte blocks. -/
def toBlocks (l : List Nat) : List (List Nat) :=
  if h : l.isEmpty then []
  else l.take 64 :: toBlocks (l.drop 64)
termination_by l.length
decreasing_by
  simp only [List.isEmpty_iff] at h
  have hp := List.length_pos.mpr h
  simp only [List.length_drop]
  omega

/-- Initial MD5 state. -/
def initH : Nat × Nat × Nat × Nat :=
  (1732584193, 4023233417, 2562383102, 271733878)

/-- The 16-byte MD5 digest of a byte list. -/
def md5bytes (msg : List Nat) : List Nat :=
  let h := (toBlocks (padMsg msg)).foldl processBlock initH
  le4 h.1 ++ le4 h.2.1 ++ le4 h.2.2.1 ++ le4 h.2.2.2

/-- Lower-case hexadecimal digit. -/
def hexChar (n : Nat) : Char :=
  if n < 10 then Char.ofNat (48 + n) else Char.ofNat (87 + n)

/-- Two hex digits of one byte. -/
def byteHex (b : Nat) : List Char := [hexChar (b / 16), hexChar (b % 16)]

end MD5

/-- The digest `hashlib.md5(data).hexdigest()`: 32 lower-case hex characters. -/
def md5hex (msg : List Nat) : String := ⟨(MD5.md5bytes msg).flatMap MD5.byteHex⟩

/-! ## Client (`Source/client.py`) -/

namespace Client

/-- Constant `MAX_TIMEOUTS = 5` (client.py line 16). -/
def MAX_TIMEOUTS : Nat := 5

/-- Constant `MAX_PARALLEL_DOWNLOADS = 4` (client.py line 18). -/
def MAX_PARALLEL_DOWNLOADS : Nat := 4

/-- Checksum check `FileTransferProtocol.verify_checksum` (client.py lines 42-46):
compare the MD5 hex digest of `data` with the expected checksum string. -/
def verify_checksum (data : List Nat) (expected_checksum : String) : Bool :=
  md5hex data == expected_checksum

/-- Python-dict update `m[k] = v`: replace the value in place if the key is
present, otherwise append the new binding (insertion order preserved). -/
def dictSet (m : List (Nat × List Nat)) (k : Nat) (v : List Nat) :
    List (Nat × List Nat) :=
  if m.any (fun p => p.1 == k) then
    m.map fun p => if p.1 == k then (k, v) else p
  else m ++ [(k, v)]

/-- The mutable state of one part's receive loop (`receive_thread`):
the accumulated `received_data` dict, `total_chunks_ref[0]`
(`-1`-able Python int, 0 before any `START`), and whether
`completion_event` has been set. -/
structure PartState where
  received : List (Nat × List Nat)
  totalChunks : Int
  completed : Bool
deriving Repr, DecidableEq

/-- State before any packet arrives (client.py lines 256-258). -/
def initPartState : PartState := ⟨[], 0, false⟩

/-- A packet as consumed by `receive_thread` after JSON parsing and
base64 decoding of the payload. -/
inductive CPacket where
  | START (totalChunks : Int)
  | DATA (sequence : Nat) (data : List Nat) (checksum : String)
  | END
  | ERRORP (msg : String)
deriving Repr, DecidableEq

/-- A control packet sent back to the server by the receive loop. -/
inductive CResp where
  | ack (sequence : Int)
  | nack (sequence : Nat)
deriving Repr, DecidableEq

/-- One iteration of `receive_thread` (client.py lines 153-225) on a parsed
packet: returns the updated state and the control packets sent. -/
def receive_thread_step (st : PartState) (p : CPacket) : PartState × List CResp :=
  match p with
  | .START t => ({ st with totalChunks := t }, [.ack 0])
  | .DATA sequence data checksum =>
      if verify_checksum data checksum then
        ({ st with received := dictSet st.received sequence data }, [.ack sequence])
      else
        (st, [.nack sequence])
  | .END =>
      if 0 < st.totalChunks ∧ st.totalChunks ≤ (st.received.length : Int) then
        ({ st with completed := true }, [.ack (-1)])
      else
        (st, [.ack (-1)])
  | .ERRORP _ => ({ st with completed := true }, [])

/-- The success test of `download_part` (client.py line 298), also the
completion test of the `END` branch (line 217):
`total_chunks_ref[0] > 0 and len(received_data) >= total_chunks_ref[0]`. -/
def partComplete (received : List (Nat × List Nat)) (totalChunks : Int) : Bool :=
  decide (0 < totalChunks) && decide (totalChunks ≤ (received.length : Int))

/-- Insert into a sorted list (ascending), modelling Python `sorted`. -/
def insertSorted (x : Nat) : List Nat → List Nat
  | [] => [x]
  | y :: ys => if x ≤ y then x :: y :: ys else y :: insertSorted x ys

/-- Python `sorted` on a list of keys. -/
def sortKeys (l : List Nat) : List Nat := l.foldr insertSorted []

/-- Reassembly `b''.join(received_data[i] for i in sorted(received_data.keys())
if i < total_chunks_ref[0])` (client.py line 299). -/
def assembleChunks (received : List (Nat × List Nat)) (total : Int) : List Nat :=
  ((sortKeys (received.map Prod.fst)).filter
      fun i : Nat => decide ((i : Int) < total)).flatMap
    fun i => (received.lookup i).getD []

/-- Random-access write: `f.seek(offset); f.write(data)` on a file whose
current contents are `file` (bytes past the end are zero-filled, as POSIX
does for a sparse seek-past-end write). -/
def writeAt (file : List Nat) (offset : Nat) (data : List Nat) : List Nat :=
  file.take offset ++ List.replicate (offset - file.length) 0 ++ data ++
    file.drop (offset + data.length)

/-- The final accumulated state of one part when its receive loop stops:
its chunk dict and the announced total. -/
structure PartRun where
  received : List (Nat × List Nat)
  totalChunks : Int
deriving Repr, DecidableEq

/-- The tail of `download_part` (client.py lines 297-308): if all chunks are
present, reassemble, truncate to the part's `length` and write at `offset`,
returning `True`; otherwise leave the file alone and return `False`. -/
def download_part_finish (output : List Nat) (offset length : Nat)
    (r : PartRun) : List Nat × Bool :=
  if partComplete r.received r.totalChunks then
    (writeAt output offset ((assembleChunks r.received r.totalChunks).take length),
     true)
  else
    (output, false)

/-- A receiver run used in the completion analysis: `START 2` followed by
two checksum-valid `DATA` packets with sequences 0 and 5 — the second
sequence lies outside `[0, total_chunks)`, as delivered e.g. by a stale
retransmission reaching the part's deterministically reused port. -/
def gapRunState : PartState :=
  (receive_thread_step
    (receive_thread_step
      (receive_thread_step initPartState (.START 2)).1
      (.DATA 0 [7] (md5hex [7]))).1
    (.DATA 5 [9] (md5hex [9]))).1

/-- Part count `num_parts = min(MAX_PARALLEL_DOWNLOADS, 4)` (client.py line 313). -/
def num_parts : Nat := min MAX_PARALLEL_DOWNLOADS 4

/-- The `(offset, length)` pairs computed by `download_file`
(client.py lines 313-326): `part_size = size // num_parts`, parts
`0 .. num_parts-2` get `part_size` bytes, the last part gets the rest. -/
def partRanges (size : Nat) : List (Nat × Nat) :=
  let part_size := size / num_parts
  (List.range num_parts).map fun i =>
    (i * part_size, if i < num_parts - 1 then part_size else size - i * part_size)

/-- Model of `download_file` (client.py lines 310-404) given the final receiver state
of each part: the output file is pre-created at full `size` (truncated),
each part in turn runs `download_part_finish` against its range, and the
file is marked processed iff `os.path.getsize(output_file) == size`.  The
boolean returned by each part is recorded but — as in the source, where the
part threads' return values are discarded — it does not influence the final
marking.  Result: final file contents, the parts' return values, and
whether the file name was added to `processed_files`. -/
def download_file (size : Nat) (runs : List PartRun) :
    List Nat × List Bool × Bool :=
  let init := List.replicate size 0
  let r := ((partRanges size).zip runs).foldl
    (fun acc pr =>
      let s := download_part_finish acc.1 pr.1.1 pr.1.2 pr.2
      (s.1, acc.2 ++ [s.2]))
    (init, ([] : List Bool))
  (r.1, r.2, r.1.length == size)

end Client

/-! ## Server (`Source/server.py`) -/

namespace Server

/-- Constant `CHUNK_SIZE = 1024 * 16` (server.py lines 11-12). -/
def CHUNK_SIZE : Nat := 1024 * 16

/-- The `DOWNLOAD` request packet built by `download_part`
(client.py lines 272-280).  It carries the file name, sequence `0`, the
declared client port and the part's byte offset — and no length field. -/
structure DownloadRequest where
  file_name : String
  sequence : Nat
  client_port : Nat
  offset : Nat
deriving Repr, DecidableEq

/-- The request sent by `download_part` for the part at `offset`. -/
def download_request (file_name : String) (client_port offset : Nat) :
    DownloadRequest :=
  ⟨file_name, 0, client_port, offset⟩

/-- A packet sent by the server.  `totalChunks` on `START` and the `END`
sequence are Python ints (negative when `offset` exceeds the file size). -/
inductive SPacket where
  | START (file_name : String) (sequence : Nat) (totalChunks : Int)
      (client_port : Nat)
  | DATA (file_name : String) (sequence : Nat) (data : List Nat)
      (checksum : String) (client_port : Nat)
  | END (file_name : String) (sequence : Int) (client_port : Nat)
  | ERROR (file_name : String) (sequence : Nat) (msg : String)
      (client_port : Nat)
deriving Repr, DecidableEq

/-- The `status` field of an `active_transfers` entry. -/
inductive TStatus where
  | starting
  | in_progress
  | completed
  | error
deriving Repr, DecidableEq

/-- The chunk loop of `send_file_chunk` (server.py lines 244-276):
for `seq` in `range(total)`, read the next `CHUNK_SIZE` bytes and emit
`(seq, chunk)`; an empty read breaks out of the loop. -/
def sendChunksFrom (rest : List Nat) (seq : Nat) : Nat → List (Nat × List Nat)
  | 0 => []
  | n + 1 =>
      let chunk := rest.take CHUNK_SIZE
      if chunk.isEmpty then []
      else (seq, chunk) :: sendChunksFrom (rest.drop CHUNK_SIZE) (seq + 1) n

/-- The chunk count `total_chunks = (file_size - offset + chunk_size - 1)
// chunk_size` (server.py lines 223-224), as a `Nat` for the in-range case
`offset ≤ file_size`. -/
def totalFor (fileSize offset : Nat) : Nat :=
  (fileSize - offset + CHUNK_SIZE - 1) / CHUNK_SIZE

/-- Everything produced by one run of the `send_file_chunk` worker:
the packets sent, the transfer's final status, and the chunk cache
(`transfer_chunks[transfer_id]`) left behind for `NACK` resends. -/
structure SendResult where
  trace : List SPacket
  status : TStatus
  cached : List (Nat × List Nat)
deriving Repr, DecidableEq

/-- Model of `send_file_chunk` (server.py lines 209-324) run to the end, with the
filesystem modelled as a name-to-contents map.  On `FileNotFoundError` it
sends one `ERROR` packet and ends with status `error`; otherwise it
computes `total_chunks = (file_size - offset + CHUNK_SIZE - 1) // CHUNK_SIZE`
(Python floor division, hence `Int.fdiv`), sends `START`, every chunk in
sequence order (caching each one), then `END`, and ends with status
`completed`.  The worker never reads ACKs: no acknowledgment input exists. -/
def send_file_chunk (files : List (String × List Nat)) (req : DownloadRequest) :
    SendResult :=
  match files.lookup req.file_name with
  | none =>
      ⟨[.ERROR req.file_name 0 ("File " ++ req.file_name ++ " not found")
          req.client_port],
       .error, []⟩
  | some content =>
      let totalI : Int :=
        Int.fdiv ((content.length : Int) - (req.offset : Int) +
          (CHUNK_SIZE : Int) - 1) (CHUNK_SIZE : Int)
      let chunks := sendChunksFrom (content.drop req.offset) 0 totalI.toNat
      ⟨.START req.file_name 0 totalI req.client_port ::
        chunks.map (fun pr =>
          .DATA req.file_name pr.1 pr.2 (md5hex pr.2) req.client_port) ++
        [.END req.file_name totalI req.client_port],
       .completed, chunks⟩

/-- The sequences of the `DATA` packets of a trace, in send order. -/
def dataSequences (tr : List SPacket) : List Nat :=
  tr.filterMap fun p =>
    match p with
    | .DATA _ sequence _ _ _ => some sequence
    | _ => none

/-- One `active_transfers` entry (server.py lines 148-153). -/
structure TransferInfo where
  client_key : String
  file_name : String
  status : TStatus
deriving Repr, DecidableEq

/-- The server's shared transfer maps (`active_transfers` and
`transfer_chunks`, server.py lines 16-18), keyed by `transfer_id`. -/
structure ServerMaps where
  active_transfers : List (String × TransferInfo)
  transfer_chunks : List (String × List (Nat × List Nat))
deriving Repr, DecidableEq

/-- The `DOWNLOAD` branch of `handle_client_request` (server.py lines
133-157) followed by the spawned `send_file_chunk` worker run to its end
(but before the delayed 30-second cleanup): register an empty chunk cache
and a `starting` transfer entry under the fresh `transfer_id`, run the
worker, and record its final status and chunk cache.  Returns the updated
maps and the packets sent to the client. -/
def handle_download (maps : ServerMaps) (files : List (String × List Nat))
    (client_key : String) (req : DownloadRequest) (transfer_id : String) :
    ServerMaps × List SPacket :=
  let maps1 : ServerMaps :=
    ⟨maps.active_transfers ++
        [(transfer_id, ⟨client_key, req.file_name, .starting⟩)],
     maps.transfer_chunks ++ [(transfer_id, [])]⟩
  let r := send_file_chunk files req
  let maps2 : ServerMaps :=
    ⟨maps1.active_transfers.map fun p =>
        if p.1 == transfer_id then (p.1, { p.2 with status := r.status }) else p,
     maps1.transfer_chunks.map fun p =>
        if p.1 == transfer_id then (p.1, r.cached) else p⟩
  (maps2, r.trace)

end Server

/-! ## Checksum helper lemmas -/

lemma md5bytes_length (msg : List Nat) : (MD5.md5bytes msg).length = 16 := by
  simp [MD5.md5bytes, MD5.le4]

lemma sum_byteHex_lengths (l : List Nat) :
    (l.map (List.length ∘ MD5.byteHex)).sum = 2 * l.length := by
  induction l with
  | nil => simp
  | cons a t ih =>
      simp only [List.map_cons, List.sum_cons, ih, Function.comp_apply,
        MD5.byteHex, List.length_cons, List.length_nil]
      omega

lemma md5hex_length (msg : List Nat) : (md5hex msg).length = 32 := by
  show ((MD5.md5bytes msg).flatMap MD5.byteHex).length = 32
  rw [List.length_flatMap, sum_byteHex_lengths, md5bytes_length]

/-- Checksum self-verification, the provable half of the checksum gate:
the digest the sender computes over the exact payload bytes always
verifies at the receiver. -/
theorem verify_checksum_checksum (data : List Nat) :
    Client.verify_checksum data (md5hex data) = true := by
  simp [Client.verify_checksum]

lemma verify_checksum_of_bad_length (data : List Nat) (s : String)
    (h : s.length ≠ 32) : Client.verify_checksum data s = false := by
  unfold Client.verify_checksum
  cases hb : md5hex data == s with
  | false => rfl
  | true =>
      have he : md5hex data = s := eq_of_beq hb
      exact absurd (he ▸ md5hex_length data) h

/-! ## Association-list (Python dict) helper lemmas -/

lemma lookup_none_cons {α β : Type} [BEq α] [LawfulBEq α] {a1 k : α} {a2 : β}
    {t : List (α × β)} (h : List.lookup k ((a1, a2) :: t) = none) :
    k ≠ a1 ∧ List.lookup k t = none := by
  by_cases hk : k = a1
  · subst hk; simp [List.lookup] at h
  · refine ⟨hk, ?_⟩
    have hb : (k == a1) = false := beq_eq_false_iff_ne.mpr hk
    simp only [List.lookup_cons, hb] at h
    exact h

lemma any_eq_false_of_lookup_none (m : List (Nat × List Nat)) (k : Nat)
    (h : m.lookup k = none) : m.any (fun p => p.1 == k) = false := by
  induction m with
  | nil => rfl
  | cons a t ih =>
      obtain ⟨a1, a2⟩ := a
      obtain ⟨h1, h2⟩ := lookup_none_cons h
      simp [List.any_cons, ih h2, beq_iff_eq, Ne.symm h1]

lemma map_update_eq_self (m : List (Nat × List Nat)) (k : Nat) (v : List Nat)
    (h : m.lookup k = none) :
    (m.map fun p => if p.1 == k then (k, v) else p) = m := by
  induction m with
  | nil => rfl
  | cons a t ih =>
      obtain ⟨a1, a2⟩ := a
      obtain ⟨h1, h2⟩ := lookup_none_cons h
      have hb1 : (a1 == k) = false := beq_eq_false_iff_ne.mpr (Ne.symm h1)
      simp only [List.map_cons, hb1, Bool.false_eq_true, if_false, ih h2]

lemma countP_key_eq_zero (m : List (Nat × List Nat)) (k : Nat)
    (h : m.lookup k = none) : m.countP (fun p => p.1 == k) = 0 := by
  induction m with
  | nil => rfl
  | cons a t ih =>
      obtain ⟨a1, a2⟩ := a
      obtain ⟨h1, h2⟩ := lookup_none_cons h
      simp [List.countP_cons, ih h2, beq_iff_eq, Ne.symm h1]

lemma lookup_append_single (m : List (Nat × List Nat)) (k : Nat) (v : List Nat)
    (h : m.lookup k = none) : (m ++ [(k, v)]).lookup k = some v := by
  induction m with
  | nil => simp [List.lookup]
  | cons a t ih =>
      obtain ⟨a1, a2⟩ := a
      obtain ⟨h1, h2⟩ := lookup_none_cons h
      have hb : (k == a1) = false := beq_eq_false_iff_ne.mpr h1
      simp only [List.cons_append, List.lookup_cons, hb]
      exact ih h2

lemma dictSet_of_lookup_none (m : List (Nat × List Nat)) (k : Nat)
    (v : List Nat) (h : m.lookup k = none) :
    Client.dictSet m k v = m ++ [(k, v)] := by
  unfold Client.dictSet
  rw [if_neg]
  rw [any_eq_false_of_lookup_none m k h]
  simp

lemma dictSet_lookup_self (m : List (Nat × List Nat)) (k : Nat) (v : List Nat)
    (h : m.lookup k = none) : (Client.dictSet m k v).lookup k = some v := by
  rw [dictSet_of_lookup_none m k v h]
  exact lookup_append_single m k v h

lemma dictSet_countP (m : List (Nat × List Nat)) (k : Nat) (v : List Nat)
    (h : m.lookup k = none) :
    (Client.dictSet m k v).countP (fun p => p.1 == k) = 1 := by
  rw [dictSet_of_lookup_none m k v h, List.countP_append,
    countP_key_eq_zero m k h]
  simp [List.countP_cons]

lemma dictSet_idem (m : List (Nat × List Nat)) (k : Nat) (v : List Nat)
    (h : m.lookup k = none) :
    Client.dictSet (Client.dictSet m k v) k v = Client.dictSet m k v := by
  rw [dictSet_of_lookup_none m k v h]
  unfold Client.dictSet
  rw [if_pos]
  · rw [List.map_append, map_update_eq_self m k v h]
    simp
  · simp [List.any_append]

lemma lookup_map_update {β : Type} (old : List (String × β)) (tid : String)
    (v : β) (g : β → β) (h : old.lookup tid = none) :
    ((old ++ [(tid, v)]).map fun p =>
        if p.1 == tid then (p.1, g p.2) else p).lookup tid = some (g v) := by
  induction old with
  | nil =>
      simp only [List.nil_append, List.map_cons, List.map_nil]
      rw [if_pos (show (((tid, v) : String × β).1 == tid) = true by simp)]
      simp [List.lookup_cons]
  | cons a t ih =>
      obtain ⟨a1, a2⟩ := a
      obtain ⟨h1, h2⟩ := lookup_none_cons h
      have hb1 : (a1 == tid) = false := beq_eq_false_iff_ne.mpr (Ne.symm h1)
      have hb2 : (tid == a1) = false := beq_eq_false_iff_ne.mpr h1
      simp only [List.cons_append, List.map_cons]
      rw [if_neg (by simp [hb1])]
      simp only [List.lookup_cons, hb2]
      exact ih h2

/-! ## Server chunk-loop helper lemmas -/

lemma fdiv_ofNat (m n : Nat) :
    Int.fdiv (m : Int) (n : Int) = ((m / n : Nat) : Int) := by
  cases m with
  | zero =>
      show Int.fdiv (Int.ofNat 0) (Int.ofNat n) = Int.ofNat (0 / n)
      rw [Nat.zero_div]
      rfl
  | succ k => rfl

lemma sendChunksFrom_spec (n : Nat) :
    ∀ (rest : List Nat) (s : Nat),
      n = (rest.length + Server.CHUNK_SIZE - 1) / Server.CHUNK_SIZE →
      (Server.sendChunksFrom rest s n).map Prod.fst = List.range' s n ∧
      (Server.sendChunksFrom rest s n).flatMap Prod.snd = rest ∧
      (Server.sendChunksFrom rest s n).length = n := by
  induction n with
  | zero =>
      intro rest s h
      have h0 : rest.length = 0 := by
        unfold Server.CHUNK_SIZE at h; omega
      have hr : rest = [] := List.eq_nil_of_length_eq_zero h0
      subst hr
      simp [Server.sendChunksFrom]
  | succ n ih =>
      intro rest s h
      have hlen : 0 < rest.length := by
        unfold Server.CHUNK_SIZE at h; omega
      have hne : (rest.take Server.CHUNK_SIZE).isEmpty = false := by
        rw [Bool.eq_false_iff, Ne, List.isEmpty_iff]
        intro hnil
        have hl := congrArg List.length hnil
        simp only [List.length_take, List.length_nil, Server.CHUNK_SIZE] at hl
        omega
      have h' : n = ((rest.drop Server.CHUNK_SIZE).length +
          Server.CHUNK_SIZE - 1) / Server.CHUNK_SIZE := by
        simp only [List.length_drop]
        unfold Server.CHUNK_SIZE at h ⊢
        omega
      obtain ⟨ih1, ih2, ih3⟩ := ih (rest.drop Server.CHUNK_SIZE) (s + 1) h'
      refine ⟨?_, ?_, ?_⟩
      · simp only [Server.sendChunksFrom, hne, Bool.false_eq_true, if_false,
          List.map_cons, ih1, List.range']
      · simp only [Server.sendChunksFrom, hne, Bool.false_eq_true, if_false,
          List.flatMap_cons, ih2, List.take_append_drop]
      · simp only [Server.sendChunksFrom, hne, Bool.false_eq_true, if_false,
          List.length_cons, ih3]

lemma send_file_chunk_trace_spec (files : List (String × List Nat))
    (name : String) (content : List Nat) (offset clientPort : Nat)
    (hf : files.lookup name = some content) (ho : offset ≤ content.length) :
    (Server.send_file_chunk files
        (Server.download_request name clientPort offset)).trace =
      Server.SPacket.START name 0 (Server.totalFor content.length offset : Int)
          clientPort ::
        (Server.sendChunksFrom (content.drop offset) 0
            (Server.totalFor content.length offset)).map
          (fun pr => Server.SPacket.DATA name pr.1 pr.2 (md5hex pr.2)
            clientPort) ++
        [Server.SPacket.END name (Server.totalFor content.length offset : Int)
          clientPort] ∧
    (Server.sendChunksFrom (content.drop offset) 0
        (Server.totalFor content.length offset)).map Prod.fst =
      List.range (Server.totalFor content.length offset) ∧
    (Server.sendChunksFrom (content.drop offset) 0
        (Server.totalFor content.length offset)).flatMap Prod.snd =
      content.drop offset ∧
    (Server.sendChunksFrom (content.drop offset) 0
        (Server.totalFor content.length offset)).length =
      Server.totalFor content.length offset := by
  have harg : (content.length : Int) - (offset : Int) +
      (Server.CHUNK_SIZE : Int) - 1 =
      ((content.length - offset + Server.CHUNK_SIZE - 1 : Nat) : Int) := by
    have hc : Server.CHUNK_SIZE = 16384 := rfl
    rw [hc]
    omega
  have htot : Int.fdiv ((content.length : Int) - (offset : Int) +
        (Server.CHUNK_SIZE : Int) - 1) (Server.CHUNK_SIZE : Int) =
      ((Server.totalFor content.length offset : Nat) : Int) := by
    rw [harg, fdiv_ofNat]
    rfl
  obtain ⟨hmap, hflat, hlen⟩ :=
    sendChunksFrom_spec (Server.totalFor content.length offset)
      (content.drop offset) 0 (by simp [Server.totalFor, List.length_drop])
  refine ⟨?_, ?_, hflat, hlen⟩
  · simp only [Server.send_file_chunk, Server.download_request, hf, htot,
      Int.toNat_natCast]
  · rw [hmap, List.range_eq_range']

lemma dataSequences_trace (name : String) (clientPort : Nat)
    (chunks : List (Nat × List Nat)) (totalI : Int) :
    Server.dataSequences
      (Server.SPacket.START name 0 totalI clientPort ::
        chunks.map (fun pr =>
          Server.SPacket.DATA name pr.1 pr.2 (md5hex pr.2) clientPort) ++
        [Server.SPacket.END name totalI clientPort]) = chunks.map Prod.fst := by
  simp only [Server.dataSequences, List.filterMap_cons, List.filterMap_append,
    List.filterMap_map, List.filterMap_nil, List.append_nil]
  rw [show ((fun p => match p with
      | Server.SPacket.DATA _ sequence _ _ _ => some sequence
      | _ => none) ∘ (fun pr : Nat × List Nat =>
        Server.SPacket.DATA name pr.1 pr.2 (md5hex pr.2) clientPort)) =
      some ∘ Prod.fst from rfl, List.filterMap_eq_map]

/-! ## Claim theorems -/

/-- C9: the server streams from the requested offset to the end of the
file.  The `DOWNLOAD` request (`download_request`) carries only an offset
— its type has no length field — and for an existing file with
`offset ≤ file_size` the server's trace is exactly one `START`, then
`total = (file_size - offset + CHUNK_SIZE - 1) / CHUNK_SIZE`
(= `ceil((file_size - offset) / CHUNK_SIZE)`) `DATA` packets whose
sequences are `0 .. total - 1` in order and whose payloads concatenate to
the file suffix from `offset`, then one `END`. -/
theorem server_streams_offset_to_eof (files : List (String × List Nat))
    (name : String) (content : List Nat) (offset clientPort : Nat)
    (hf : files.lookup name = some content) (ho : offset ≤ content.length) :
    (Server.send_file_chunk files
        (Server.download_request name clientPort offset)).trace =
      Server.SPacket.START name 0 (Server.totalFor content.length offset : Int)
          clientPort ::
        (Server.sendChunksFrom (content.drop offset) 0
            (Server.totalFor content.length offset)).map
          (fun pr => Server.SPacket.DATA name pr.1 pr.2 (md5hex pr.2)
            clientPort) ++
        [Server.SPacket.END name (Server.totalFor content.length offset : Int)
          clientPort] ∧
    (Server.sendChunksFrom (content.drop offset) 0
        (Server.totalFor content.length offset)).length =
      Server.totalFor content.length offset ∧
    (Server.sendChunksFrom (content.drop offset) 0
        (Server.totalFor content.length offset)).map Prod.fst =
      List.range (Server.totalFor content.length offset) ∧
    (Server.sendChunksFrom (content.drop offset) 0
        (Server.totalFor content.length offset)).flatMap Prod.snd =
      content.drop offset := by
  obtain ⟨ht, hm, hflat, hlen⟩ :=
    send_file_chunk_trace_spec files name content offset clientPort hf ho
  exact ⟨ht, hlen, hm, hflat⟩

/-- C9 witness: the streaming shape at a concrete three-byte file
requested from offset 1 (a single chunk). -/
theorem server_streams_offset_to_eof_witness :
    ([("a", [1, 2, 3])] : List (String × List Nat)).lookup "a" =
        some [1, 2, 3] ∧
    1 ≤ ([1, 2, 3] : List Nat).length ∧
    (Server.send_file_chunk [("a", [1, 2, 3])]
        (Server.download_request "a" 20000 1)).trace =
      Server.SPacket.START "a" 0 (Server.totalFor 3 1 : Int) 20000 ::
        (Server.sendChunksFrom (([1, 2, 3] : List Nat).drop 1) 0
            (Server.totalFor 3 1)).map
          (fun pr => Server.SPacket.DATA "a" pr.1 pr.2 (md5hex pr.2) 20000) ++
        [Server.SPacket.END "a" (Server.totalFor 3 1 : Int) 20000] :=
  ⟨rfl, by decide,
    (server_streams_offset_to_eof [("a", [1, 2, 3])] "a" [1, 2, 3] 1 20000 rfl
      (by decide)).1⟩

/-- C2 counterexample: for a two-chunk file (16385 bytes), the sender —
which by construction consumes no acknowledgment input at all, so in
particular in the execution where the peer never delivers any ACK — sends
the `DATA` packet with sequence 1 right after the one with sequence 0:
its `DATA` sequence trace is `[0, 1]` with no ACK received in between,
refuting stop-and-wait. -/
theorem sender_no_stop_and_wait_counterexample :
    Server.dataSequences
      (Server.send_file_chunk [("f", List.replicate 16385 0)]
        (Server.download_request "f" 20000 0)).trace = [0, 1] := by
  obtain ⟨ht, hm, _, _⟩ := send_file_chunk_trace_spec
    [("f", List.replicate 16385 0)] "f" (List.replicate 16385 0) 0 20000 rfl
    (Nat.zero_le _)
  rw [ht, dataSequences_trace, hm]
  have h2 : Server.totalFor (List.replicate 16385 (0 : Nat)).length 0 = 2 := by
    norm_num [Server.totalFor, Server.CHUNK_SIZE, List.length_replicate]
  rw [h2]
  rfl

/-- C2 amended: within one transfer the sender emits the `DATA` packets for
sequences `0 .. total_chunks - 1` back to back in strictly increasing
order, without waiting for any acknowledgment: `send_file_chunk` has no
ACK input, so the same trace is produced whether or not ACKs ever arrive;
only a `NACK` triggers a (cache-based) resend, outside this worker. -/
theorem sender_streams_without_acks (files : List (String × List Nat))
    (name : String) (content : List Nat) (offset clientPort : Nat)
    (hf : files.lookup name = some content) (ho : offset ≤ content.length) :
    Server.dataSequences
        (Server.send_file_chunk files
          (Server.download_request name clientPort offset)).trace =
      List.range (Server.totalFor content.length offset) ∧
    List.Pairwise (· < ·)
      (Server.dataSequences
        (Server.send_file_chunk files
          (Server.download_request name clientPort offset)).trace) := by
  obtain ⟨ht, hm, _, _⟩ :=
    send_file_chunk_trace_spec files name content offset clientPort hf ho
  rw [ht, dataSequences_trace, hm]
  exact ⟨rfl, List.pairwise_lt_range _⟩

/-- C2 witness: the amended statement at a concrete three-byte file. -/
theorem sender_streams_without_acks_witness :
    ([("a", [1, 2, 3])] : List (String × List Nat)).lookup "a" =
        some [1, 2, 3] ∧
    1 ≤ ([1, 2, 3] : List Nat).length ∧
    Server.dataSequences
        (Server.send_file_chunk [("a", [1, 2, 3])]
          (Server.download_request "a" 20000 1)).trace =
      List.range (Server.totalFor 3 1) :=
  ⟨rfl, by decide,
    (sender_streams_without_acks [("a", [1, 2, 3])] "a" [1, 2, 3] 1 20000 rfl
      (by decide)).1⟩

/-- C4 counterexample: a `DOWNLOAD` for a file absent from the catalog.
The server does send the `ERROR` packet, but — contrary to the claim that
no `Transfer` is created — `handle_client_request` registers the transfer
in the shared maps before the existence check, so after the worker runs
the maps still hold an entry for the request (with status `error`) until
the delayed cleanup. -/
theorem not_found_transfer_registered_counterexample :
    (Server.handle_download ⟨[], []⟩ [] "1.2.3.4:20000"
        (Server.download_request "nofile" 20000 0) "tid").2 =
      [Server.SPacket.ERROR "nofile" 0 "File nofile not found" 20000] ∧
    (Server.handle_download ⟨[], []⟩ [] "1.2.3.4:20000"
        (Server.download_request "nofile" 20000 0) "tid").1.active_transfers =
      [("tid", ⟨"1.2.3.4:20000", "nofile", Server.TStatus.error⟩)] := by
  constructor <;> rfl

/-- C4 amended: a `DOWNLOAD` naming a file absent from the catalog makes
the server send an `ERROR` packet to the client, and a `Transfer` IS
registered in the server's shared maps for that request: after the worker
ends, `active_transfers` maps the fresh `transfer_id` to an entry with
status `error` (and `transfer_chunks` holds its empty chunk cache), both
evicted only by the delayed cleanup. -/
theorem not_found_error_and_registered (maps : Server.ServerMaps)
    (files : List (String × List Nat)) (client_key : String)
    (req : Server.DownloadRequest) (transfer_id : String)
    (hnf : files.lookup req.file_name = none)
    (hfresh1 : maps.active_transfers.lookup transfer_id = none)
    (hfresh2 : maps.transfer_chunks.lookup transfer_id = none) :
    (Server.handle_download maps files client_key req transfer_id).2 =
      [Server.SPacket.ERROR req.file_name 0
        ("File " ++ req.file_name ++ " not found") req.client_port] ∧
    (Server.handle_download maps files client_key
          req transfer_id).1.active_transfers.lookup transfer_id =
      some ⟨client_key, req.file_name, Server.TStatus.error⟩ ∧
    (Server.handle_download maps files client_key
          req transfer_id).1.transfer_chunks.lookup transfer_id =
      some [] := by
  unfold Server.handle_download
  simp only [Server.send_file_chunk, hnf]
  refine ⟨trivial, ?_, ?_⟩
  · exact lookup_map_update maps.active_transfers transfer_id
      ⟨client_key, req.file_name, Server.TStatus.starting⟩
      (fun info => ⟨info.client_key, info.file_name, Server.TStatus.error⟩)
      hfresh1
  · exact lookup_map_update maps.transfer_chunks transfer_id []
      (fun _ => []) hfresh2

/-- C4 witness: the amended statement at empty maps and an empty catalog. -/
theorem not_found_error_and_registered_witness :
    ([] : List (String × List Nat)).lookup
        (Server.download_request "nofile" 20000 0).file_name = none ∧
    (Server.handle_download ⟨[], []⟩ [] "1.2.3.4:20000"
          (Server.download_request "nofile" 20000 0) "t2").1.active_transfers.lookup
        "t2" =
      some ⟨"1.2.3.4:20000", "nofile", Server.TStatus.error⟩ :=
  ⟨rfl,
    (not_found_error_and_registered ⟨[], []⟩ [] "1.2.3.4:20000"
      (Server.download_request "nofile" 20000 0) "t2" rfl rfl rfl).2.1⟩

/-- C7: Range tiling.  For any file size, the `(offset, length)` pairs
produced by `download_file`'s part splitter (with
`num_parts = min(MAX_PARALLEL_DOWNLOADS, 4)` and
`part_size = size // num_parts`) are pairwise disjoint and their union
covers `[0, size)` exactly, the final part absorbing the
integer-division remainder. -/
theorem partRanges_tiling (size x : Nat) :
    (Client.partRanges size).Pairwise
      (fun r s => r.1 + r.2 ≤ s.1 ∨ s.1 + s.2 ≤ r.1) ∧
    (x < size ↔ ∃ r ∈ Client.partRanges size, r.1 ≤ x ∧ x < r.1 + r.2) := by
  have h4 : Client.num_parts = 4 := rfl
  have hr : List.range 4 = [0, 1, 2, 3] := rfl
  unfold Client.partRanges
  rw [h4, hr]
  constructor
  · simp only [List.map_cons, List.map_nil, List.pairwise_cons,
      List.mem_cons, List.mem_singleton, List.not_mem_nil, List.Pairwise.nil]
    norm_num
    omega
  · simp only [List.map_cons, List.map_nil, List.mem_cons, List.not_mem_nil]
    norm_num
    omega

/-- C1 (code-bug evaluation): an 8-byte download split into the four ranges
`(0,2), (2,2), (4,2), (6,2)` where part 0 receives none of its 1 chunk
(it fails, returning `False`) while parts 1-3 complete.  The output file
was pre-truncated to the full size, so the final
`os.path.getsize(output_file) == size` check passes and `download_file`
adds the file to `processed_files` (last component `true`) even though
part 0 failed and its byte range still holds the zero fill. -/
theorem download_file_marks_processed_despite_failed_part :
    Client.download_file 8
        [⟨[], 1⟩, ⟨[(0, [5, 5])], 1⟩, ⟨[(0, [6, 6])], 1⟩, ⟨[(0, [7, 7])], 1⟩] =
      ([0, 0, 5, 5, 6, 6, 7, 7], [false, true, true, true], true) := by
  rfl

/-- C10: Frame property of a part's write.  `download_part` seeks to its
`offset` and writes `file_data[:length]`, so the write preserves the file
length and leaves every byte outside `[offset, offset + length)`
unchanged, even when the reassembled data is longer than the range. -/
theorem download_part_write_frame (file data : List Nat)
    (offset length i : Nat) (h : offset + length ≤ file.length)
    (hi : i < offset ∨ offset + length ≤ i) :
    (Client.writeAt file offset (data.take length)).length = file.length ∧
    (Client.writeAt file offset (data.take length))[i]? = file[i]? := by
  have ho : offset ≤ file.length := le_trans (Nat.le_add_right _ _) h
  have hd : (data.take length).length ≤ length := by
    rw [List.length_take]
    exact Nat.min_le_left _ _
  have h1 : (file.take offset).length = offset := by
    rw [List.length_take]
    exact Nat.min_eq_left ho
  unfold Client.writeAt
  rw [Nat.sub_eq_zero_of_le ho, List.replicate_zero, List.append_nil,
    List.append_assoc]
  constructor
  · simp only [List.length_append, List.length_take, List.length_drop]
    omega
  · rcases hi with hlt | hge
    · rw [List.getElem?_append_left (by rw [h1]; exact hlt),
        List.getElem?_take, if_pos hlt]
    · rw [List.getElem?_append_right (by rw [h1]; omega), h1,
        List.getElem?_append_right (by omega), List.getElem?_drop]
      congr 1
      omega

/-- C10 witness: the frame property applied to a concrete file of length 4,
a part range `[1, 3)` and the out-of-range index 3. -/
theorem download_part_write_frame_witness :
    1 + 2 ≤ ([1, 2, 3, 4] : List Nat).length ∧
    (1 < 1 ∨ 1 + 2 ≤ 3) ∧
    ((Client.writeAt [1, 2, 3, 4] 1 (([9, 9, 9] : List Nat).take 2)).length =
        ([1, 2, 3, 4] : List Nat).length ∧
      (Client.writeAt [1, 2, 3, 4] 1 (([9, 9, 9] : List Nat).take 2))[3]? =
        ([1, 2, 3, 4] : List Nat)[3]?) :=
  ⟨by decide, Or.inr (by decide),
    download_part_write_frame [1, 2, 3, 4] [9, 9, 9] 1 2 3 (by decide)
      (Or.inr (by decide))⟩

/-- C6: the receiver's `DATA` handling is checksum-gated and
duplicate-safe.  From a state where `sq` is not yet stored: a
checksum-valid `DATA(sq)` is stored and ACKed; delivering the same packet
a second time acknowledges it again while leaving the state unchanged
(one entry for `sq`, holding the same bytes); a checksum-invalid `DATA(sq)`
triggers `NACK(sq)` and stores nothing. -/
theorem receive_data_checksum_gated (st : Client.PartState) (sq : Nat)
    (d : List Nat) (ck ckBad : String)
    (h0 : st.received.lookup sq = none)
    (hv : Client.verify_checksum d ck = true)
    (hb : Client.verify_checksum d ckBad = false) :
    (Client.receive_thread_step st (.DATA sq d ck)).2 =
      [Client.CResp.ack (sq : Int)] ∧
    (Client.receive_thread_step st (.DATA sq d ck)).1.received.lookup sq =
      some d ∧
    (Client.receive_thread_step
        (Client.receive_thread_step st (.DATA sq d ck)).1 (.DATA sq d ck)).2 =
      [Client.CResp.ack (sq : Int)] ∧
    (Client.receive_thread_step
        (Client.receive_thread_step st (.DATA sq d ck)).1 (.DATA sq d ck)).1 =
      (Client.receive_thread_step st (.DATA sq d ck)).1 ∧
    (Client.receive_thread_step st (.DATA sq d ck)).1.received.countP
        (fun p => p.1 == sq) = 1 ∧
    (Client.receive_thread_step st (.DATA sq d ckBad)).2 =
      [Client.CResp.nack sq] ∧
    (Client.receive_thread_step st (.DATA sq d ckBad)).1 = st := by
  have hstep : Client.receive_thread_step st (.DATA sq d ck) =
      ({ st with received := Client.dictSet st.received sq d },
        [Client.CResp.ack (sq : Int)]) := by
    simp [Client.receive_thread_step, hv]
  have hstep2 : Client.receive_thread_step
      { st with received := Client.dictSet st.received sq d } (.DATA sq d ck) =
      ({ st with received :=
          Client.dictSet (Client.dictSet st.received sq d) sq d },
        [Client.CResp.ack (sq : Int)]) := by
    simp [Client.receive_thread_step, hv]
  have hstepB : Client.receive_thread_step st (.DATA sq d ckBad) =
      (st, [Client.CResp.nack sq]) := by
    simp [Client.receive_thread_step, hb]
  simp only [hstep, hstep2, hstepB]
  refine ⟨trivial, dictSet_lookup_self _ _ _ h0, trivial, ?_,
    dictSet_countP _ _ _ h0, trivial, trivial⟩
  rw [dictSet_idem st.received sq d h0]

/-- C6 witness: the gated handling at the empty initial state, the empty
payload with its genuine digest, and the bad checksum string `"x"`. -/
theorem receive_data_checksum_gated_witness :
    (Client.initPartState.received.lookup 0 = none) ∧
    Client.verify_checksum [] (md5hex []) = true ∧
    Client.verify_checksum [] "x" = false ∧
    (Client.receive_thread_step Client.initPartState
        (.DATA 0 [] (md5hex []))).2 = [Client.CResp.ack ((0 : Nat) : Int)] ∧
    (Client.receive_thread_step Client.initPartState
        (.DATA 0 [] (md5hex []))).1.received.lookup 0 = some [] ∧
    (Client.receive_thread_step Client.initPartState
        (.DATA 0 [] "x")).1 = Client.initPartState := by
  have hv := verify_checksum_checksum []
  have hb := verify_checksum_of_bad_length [] "x" (by decide)
  have h := receive_data_checksum_gated Client.initPartState 0 [] (md5hex [])
    "x" rfl hv hb
  exact ⟨rfl, hv, hb, h.1, h.2.1, h.2.2.2.2.2.2⟩

/-- C5 counterexample: a reachable receiver run (`START 2`, valid `DATA 0`,
valid `DATA 5`) whose stored sequence set is `{0, 5}` — a gap at 1 — yet
the completion test passes and the `END` handler marks the part complete,
because the code only compares the count of stored sequences against
`total_chunks`; `download_part` would then write and report success.  This
refutes "Reassembled iff the stored set is exactly
`{0, ..., total_chunks - 1}`". -/
theorem completion_gap_counterexample :
    Client.gapRunState.received.map Prod.fst = [0, 5] ∧
    Client.partComplete Client.gapRunState.received
      Client.gapRunState.totalChunks = true ∧
    (Client.receive_thread_step Client.gapRunState
      Client.CPacket.END).1.completed = true := by
  have he : Client.gapRunState = ⟨[(0, [7]), (5, [9])], 2, false⟩ := by
    unfold Client.gapRunState
    simp [Client.receive_thread_step, Client.initPartState,
      verify_checksum_checksum, Client.dictSet]
  rw [he]
  exact ⟨rfl, rfl, rfl⟩

/-- C5 amended: completion is decided by counting.  For a receiver dict
with distinct keys and a positive announced total, the part completes iff
it stores at least `total_chunks` distinct sequences; when every stored
sequence lies in `[0, total_chunks)` — as holds for packets of the current
transfer — this is equivalent to the stored set being exactly
`{0, ..., total_chunks - 1}`.  (An out-of-range stored sequence can
satisfy the count despite a gap, as the counterexample shows.) -/
theorem part_completion_characterization (received : List (Nat × List Nat))
    (total : Int) (hnd : (received.map Prod.fst).Nodup) (hpos : 0 < total) :
    (Client.partComplete received total = true ↔
      total.toNat ≤ received.length) ∧
    ((∀ k ∈ received.map Prod.fst, (k : Int) < total) →
      (Client.partComplete received total = true ↔
        (received.map Prod.fst).toFinset = Finset.range total.toNat)) := by
  have hiff : Client.partComplete received total = true ↔
      total.toNat ≤ received.length := by
    simp [Client.partComplete, hpos, Int.toNat_le]
  refine ⟨hiff, fun hb => ?_⟩
  rw [hiff]
  constructor
  · intro hle
    apply Finset.eq_of_subset_of_card_le
    · intro k hk
      rw [List.mem_toFinset] at hk
      rw [Finset.mem_range]
      have hk2 := hb k hk
      omega
    · rw [Finset.card_range, List.toFinset_card_of_nodup hnd,
        List.length_map]
      exact hle
  · intro heq
    have hcard := congrArg Finset.card heq
    rw [List.toFinset_card_of_nodup hnd, Finset.card_range,
      List.length_map] at hcard
    omega

/-- C5 witness: the count characterization at a two-chunk receiver holding
exactly the sequences 0 and 1. -/
theorem part_completion_characterization_witness :
    (([(0, [1]), (1, [2])] : List (Nat × List Nat)).map Prod.fst).Nodup ∧
    (0 : Int) < 2 ∧
    (Client.partComplete [(0, [1]), (1, [2])] 2 = true ↔
      (2 : Int).toNat ≤ ([(0, [1]), (1, [2])] : List (Nat × List Nat)).length) :=
  ⟨by decide, by decide,
    (part_completion_characterization [(0, [1]), (1, [2])] 2 (by decide)
      (by decide)).1⟩

/-- C3 counterexample: a sender to which no ACK is ever delivered
(`send_file_chunk` consumes no acknowledgment input at all) finishes with
status `completed`, not `error`: the transfer never reaches `Error`, there
is no bounded retry of an unacknowledged packet. -/
theorem sender_completes_without_acks_counterexample :
    (Server.send_file_chunk [("f", [1, 2, 3])]
        (Server.download_request "f" 20000 0)).status =
      Server.TStatus.completed ∧
    Server.TStatus.completed ≠ Server.TStatus.error :=
  ⟨rfl, by decide⟩

/-- C3 amended: the sender has no retry ceiling and never waits for ACKs:
for every existing file, `send_file_chunk` runs to the end and sets the
transfer status to `completed` even though not a single ACK was delivered
(the worker has no acknowledgment input; retransmission happens only when
a `NACK` arrives, via the chunk cache, unboundedly). -/
theorem sender_status_completed_without_acks (files : List (String × List Nat))
    (name : String) (content : List Nat) (offset clientPort : Nat)
    (hf : files.lookup name = some content) :
    (Server.send_file_chunk files
        (Server.download_request name clientPort offset)).status =
      Server.TStatus.completed := by
  simp only [Server.send_file_chunk, Server.download_request, hf]

/-- C3 witness: the amended statement at a concrete one-chunk file. -/
theorem sender_status_completed_without_acks_witness :
    ([("a", [1, 2, 3])] : List (String × List Nat)).lookup "a" = some [1, 2, 3] ∧
    (Server.send_file_chunk [("a", [1, 2, 3])]
        (Server.download_request "a" 20001 1)).status =
      Server.TStatus.completed :=
  ⟨rfl, sender_status_completed_without_acks [("a", [1, 2, 3])] "a" [1, 2, 3]
    1 20001 rfl⟩

end FileTransfer
